import Mathlib

/-!
Shallow embedding of the client-side fire-alert session state machine of
`src/pages/LiveMonitoring.tsx` (vanrakshak client).

Numeric sensor channels are embedded as `ℚ` (the JavaScript arithmetic used
by the tracker — sums, divisions by a list length, `Math.max`/`Math.min` —
is exact on the values the proofs touch). ISO-8601 timestamp strings compare
chronologically through their canonical encoding, so timestamps are embedded
as `Nat`.

The React effects become explicit state-transition functions on a
`MonitoringState` record:
  * `ingestReading`  — the reading-ingestion effect (duplicate filter,
    weather enhancement, 20-element history cap);
  * `trackReading` / `sessionTrackingStep` — the session-tracking effect
    (open / extend / close, aggregate recomputation, persistence);
  * `step` — one newly polled reading processed end to end.
-/

namespace VanRakshak

/-- Weather block attached to a stored reading
(`processReadingWithWeather`). -/
structure ReadingWeather where
  temp_max : ℚ
  temp_min : ℚ
  wind_speed : ℚ
  wind_gust : ℚ
  current_temp : ℚ
  feels_like : ℚ
  humidity : ℚ
  pressure : ℚ
  description : String
  deriving DecidableEq, Repr

/-- One polled sensor observation (interface `SensorReading`). -/
structure SensorReading where
  id : String
  deviceId : String
  latitude : ℚ
  longitude : ℚ
  humidity : ℚ
  temp : ℚ
  smoke : ℚ
  isFire : Bool
  timestamp : Nat
  name : String
  status : String
  weatherData : Option ReadingWeather := none
  deriving DecidableEq, Repr

/-- Processed current-conditions record (interface `WeatherData`). -/
structure WeatherData where
  temp : ℚ
  feels_like : ℚ
  humidity : ℚ
  pressure : ℚ
  wind_speed : ℚ
  wind_deg : ℚ
  wind_gust : Option ℚ := none
  visibility : ℚ
  description : String
  icon : String
  deriving DecidableEq, Repr

/-- Lifecycle of one inference request (`MLPrediction.status`). -/
inductive PredStatus where
  | processing
  | completed
  | failed
  deriving DecidableEq, Repr

/-- The numeric payload sent to the inference endpoint
(`MLPrediction.input_data`). -/
structure MLInput where
  temperature : ℚ
  humidity : ℚ
  smoke : ℚ
  temp_max : ℚ
  temp_min : ℚ
  wind_speed : ℚ
  wind_gust : ℚ
  deriving DecidableEq, Repr

/-- One inference request/response cycle (interface `MLPrediction`). -/
structure MLPrediction where
  id : String
  timestamp : Nat
  input_data : MLInput
  prediction : Nat
  level : String
  emoji : String
  message : String
  confidence : Option ℚ := none
  probabilities : Option (List (String × ℚ)) := none
  status : PredStatus
  deriving DecidableEq, Repr

/-- `FireAlertSession.status`. -/
inductive SessionStatus where
  | active
  | completed
  deriving DecidableEq, Repr

/-- A contiguous tracked span of fire activity (interface
`FireAlertSession`). -/
structure FireAlertSession where
  id : String
  deviceId : String
  startTime : Nat
  endTime : Option Nat
  readings : List SensorReading
  mlPredictions : List MLPrediction
  maxTemp : ℚ
  minTemp : ℚ
  avgTemp : ℚ
  maxSmoke : ℚ
  minSmoke : ℚ
  avgSmoke : ℚ
  maxHumidity : ℚ
  minHumidity : ℚ
  avgHumidity : ℚ
  status : SessionStatus
  mlConfirmed : Bool
  deriving DecidableEq, Repr

/-- The component state the two effects read and write: reading history,
the single tracked session (`currentSession`), the active / completed
lists, the prediction list, the current weather, and the
`localStorage`-persisted session array (`fireAlertSessions`). -/
structure MonitoringState where
  sensorReadings : List SensorReading
  currentSession : Option FireAlertSession
  activeSessions : List FireAlertSession
  completedSessions : List FireAlertSession
  mlPredictions : List MLPrediction
  weatherData : Option WeatherData
  savedStore : List FireAlertSession
  deriving DecidableEq, Repr

/-! ### Reading Ingestor (`convertApiToSensorData`)

A raw device record from the alerts endpoint: every field may be absent.
JavaScript `a || b` falls through on falsy values (`0`, `""`, `false`), so
the defaulting helpers mirror that, not plain `Option.getD`. -/

/-- Raw device record of unknown/partial shape, as consumed by
`convertApiToSensorData`. -/
structure RawDevice where
  _id : Option String := none
  deviceId : Option String := none
  id : Option String := none
  latitude : Option ℚ := none
  longitude : Option ℚ := none
  humidity : Option ℚ := none
  temp : Option ℚ := none
  temperature : Option ℚ := none
  smoke : Option ℚ := none
  isfire : Option Bool := none
  isFire : Option Bool := none
  lastUpdate : Option Nat := none
  timestamp : Option Nat := none
  name : Option String := none
  deriving DecidableEq, Repr

/-- JavaScript `x || d` on a possibly-absent number (`0` is falsy). -/
def jsOrQ (x : Option ℚ) (d : ℚ) : ℚ :=
  match x with
  | some v => if v = 0 then d else v
  | none => d

/-- JavaScript `x || d` on a possibly-absent string (`""` is falsy). -/
def jsOrStr (x : Option String) (d : String) : String :=
  match x with
  | some s => if s = "" then d else s
  | none => d

/-- JavaScript `x || d` on a possibly-absent boolean. -/
def jsOrBool (x : Option Bool) (d : Bool) : Bool :=
  match x with
  | some b => if b then true else d
  | none => d

/-- JavaScript `x || d` on a possibly-absent timestamp (the `0` encoding of
an empty timestamp string is falsy). -/
def jsOrNat (x : Option Nat) (d : Nat) : Nat :=
  match x with
  | some v => if v = 0 then d else v
  | none => d

/-- One device record normalized to a `SensorReading`
(`convertApiToSensorData`'s per-device mapping; `now` is the ingestion
time used for the `new Date().toISOString()` default). -/
def convertDevice (device : RawDevice) (now : Nat) : SensorReading :=
  let deviceId := jsOrStr device.deviceId (jsOrStr device.id
    (match device._id with
     | some m => if m = "" then "DEV-unknown" else "DEV-" ++ m.takeRight 4
     | none => "DEV-unknown"))
  let id := jsOrStr device._id (jsOrStr device.id deviceId)
  { id := id
    deviceId := deviceId
    latitude := jsOrQ device.latitude 0
    longitude := jsOrQ device.longitude 0
    humidity := jsOrQ device.humidity 0
    temp := jsOrQ device.temp (jsOrQ device.temperature 0)
    smoke := jsOrQ device.smoke 0
    isFire := jsOrBool device.isfire (jsOrBool device.isFire false)
    timestamp := jsOrNat device.lastUpdate (jsOrNat device.timestamp now)
    name := jsOrStr device.name ("Sensor " ++ deviceId)
    status := if jsOrBool device.isfire (jsOrBool device.isFire false)
              then "warning" else "active"
    weatherData := none }

/-- `convertApiToSensorData`: a missing or non-array payload yields `[]`;
otherwise every device record is normalized. -/
def convertApiToSensorData (apiDevices : Option (List RawDevice)) (now : Nat) :
    List SensorReading :=
  match apiDevices with
  | none => []
  | some l => l.map (fun device => convertDevice device now)

/-! ### Duplicate Filter and weather enhancement -/

/-- `isDuplicateReading`: a candidate duplicates the history iff some held
reading agrees on timestamp, temperature, humidity and smoke (device
identity is not re-checked). -/
def isDuplicateReading (newReading : SensorReading)
    (existingReadings : List SensorReading) : Bool :=
  existingReadings.any fun reading =>
    reading.timestamp == newReading.timestamp &&
    reading.temp == newReading.temp &&
    reading.humidity == newReading.humidity &&
    reading.smoke == newReading.smoke

/-- `processReadingWithWeather`: attach the derived weather block to a
reading; identity when no weather is available. -/
def processReadingWithWeather (reading : SensorReading)
    (weather : Option WeatherData) : SensorReading :=
  match weather with
  | none => reading
  | some w =>
    { reading with
      weatherData := some
        { temp_max := w.temp + 5
          temp_min := w.temp - 5
          wind_speed := w.wind_speed
          wind_gust := w.wind_gust.getD 0
          current_temp := w.temp
          feels_like := w.feels_like
          humidity := w.humidity
          pressure := w.pressure
          description := w.description } }

/-! ### Session Tracker (the session-tracking effect, lines 443–544) -/

/-- The `recentMlPredictions` filter: completed predictions whose input
payload matches the latest reading's channels. -/
def recentPredictionsFor (preds : List MLPrediction)
    (latestReading : SensorReading) : List MLPrediction :=
  preds.filter fun pred =>
    pred.input_data.temperature == latestReading.temp &&
    pred.input_data.humidity == latestReading.humidity &&
    pred.input_data.smoke == latestReading.smoke &&
    pred.status == PredStatus.completed

/-- Session opening: aggregates seeded from the single opening reading. -/
def openSession (plainReading : SensorReading) (recent : List MLPrediction)
    (mlConfirmedNow : Bool) (now : Nat) : FireAlertSession :=
  { id := "session-" ++ toString now
    deviceId := plainReading.deviceId
    startTime := plainReading.timestamp
    endTime := none
    readings := [plainReading]
    mlPredictions := recent
    maxTemp := plainReading.temp
    minTemp := plainReading.temp
    avgTemp := plainReading.temp
    maxSmoke := plainReading.smoke
    minSmoke := plainReading.smoke
    avgSmoke := plainReading.smoke
    maxHumidity := plainReading.humidity
    minHumidity := plainReading.humidity
    avgHumidity := plainReading.humidity
    status := SessionStatus.active
    mlConfirmed := mlConfirmedNow }

/-- Session extension: prepend the reading (50-element cap), merge the
correlated predictions (20-element cap), update the extrema by comparison,
recompute every average over the retained readings list, and keep
`mlConfirmed` once true. -/
def extendSession (currentSession : FireAlertSession)
    (plainReading : SensorReading) (recent : List MLPrediction)
    (mlConfirmedNow : Bool) : FireAlertSession :=
  let readings := plainReading :: currentSession.readings.take 49
  let totalReadings : ℚ := (readings.length : ℚ)
  { currentSession with
    readings := readings
    mlPredictions := (recent ++ currentSession.mlPredictions).take 20
    maxTemp := max currentSession.maxTemp plainReading.temp
    minTemp := min currentSession.minTemp plainReading.temp
    maxSmoke := max currentSession.maxSmoke plainReading.smoke
    minSmoke := min currentSession.minSmoke plainReading.smoke
    maxHumidity := max currentSession.maxHumidity plainReading.humidity
    minHumidity := min currentSession.minHumidity plainReading.humidity
    avgTemp := (readings.map (fun r => r.temp)).sum / totalReadings
    avgSmoke := (readings.map (fun r => r.smoke)).sum / totalReadings
    avgHumidity := (readings.map (fun r => r.humidity)).sum / totalReadings
    mlConfirmed := currentSession.mlConfirmed || mlConfirmedNow }

/-- Session closure: stamp `endTime` with the closing reading's timestamp
and mark the session completed. -/
def closeSessionUpd (currentSession : FireAlertSession) (ts : Nat) :
    FireAlertSession :=
  { currentSession with endTime := some ts, status := SessionStatus.completed }

/-- The persistence shape used for both the in-memory completed list and
the durable store: `[completedSession, ...prev.slice(0, 9)]`. -/
def persistClose (store : List FireAlertSession)
    (completedSession : FireAlertSession) : List FireAlertSession :=
  completedSession :: store.take 9

/-- One evaluation of the session-tracking transition rule on a given
latest reading (lines 447–542): open / extend / close / no-op. -/
def trackReading (st : MonitoringState) (latestReading : SensorReading)
    (now : Nat) : MonitoringState :=
  let recent := recentPredictionsFor st.mlPredictions latestReading
  let mlConfirmedNow := recent.any fun pred => pred.prediction == 1
  let shouldStartSession := latestReading.isFire || mlConfirmedNow
  match st.currentSession with
  | none =>
    if shouldStartSession then
      let newSession := openSession latestReading recent mlConfirmedNow now
      { st with
        currentSession := some newSession
        activeSessions := st.activeSessions ++ [newSession] }
    else st
  | some cur =>
    if shouldStartSession then
      let updated := extendSession cur latestReading recent mlConfirmedNow
      { st with
        currentSession := some updated
        activeSessions := st.activeSessions.map fun s =>
          if s.id == updated.id then updated else s }
    else
      let completedSession := closeSessionUpd cur latestReading.timestamp
      { st with
        currentSession := none
        activeSessions := st.activeSessions.filter fun s =>
          !(s.id == completedSession.id)
        completedSessions := persistClose st.completedSessions completedSession
        savedStore := persistClose st.savedStore completedSession }

/-- The session-tracking effect: guarded on a non-empty reading history and
available weather data (line 444); otherwise it does nothing. -/
def sessionTrackingStep (st : MonitoringState) (now : Nat) : MonitoringState :=
  match st.sensorReadings, st.weatherData with
  | latestReading :: _, some _ => trackReading st latestReading now
  | _, _ => st

/-- The reading-ingestion effect (lines 381–400): drop duplicates, enhance
with weather when available, prepend, cap the history at 20. -/
def ingestReading (st : MonitoringState) (newReading : SensorReading) :
    MonitoringState :=
  if isDuplicateReading newReading st.sensorReadings then st
  else
    let enhancedReading :=
      match st.weatherData with
      | some w => processReadingWithWeather newReading (some w)
      | none => newReading
    { st with
      sensorReadings := (enhancedReading :: st.sensorReadings).take 20 }

/-- One newly polled reading processed end to end: the duplicate filter
suppresses everything; an accepted reading is ingested and then the
session-tracking rule is evaluated once on the updated history. -/
def step (st : MonitoringState) (now : Nat) (newReading : SensorReading) :
    MonitoringState :=
  if isDuplicateReading newReading st.sensorReadings then st
  else sessionTrackingStep (ingestReading st newReading) now

/-- Process a list of `(now, reading)` poll events in order. -/
def runSteps (st : MonitoringState) (events : List (Nat × SensorReading)) :
    MonitoringState :=
  events.foldl (fun s p => step s p.1 p.2) st

/-- Every state visited while processing the events, the initial and final
states included. -/
def stepsTrace (st : MonitoringState) (events : List (Nat × SensorReading)) :
    List MonitoringState :=
  match events with
  | [] => [st]
  | p :: ps => st :: stepsTrace (step st p.1 p.2) ps

/-! ### Concrete inputs used by the example claim, witnesses and
counterexamples -/

/-- A fixed current-conditions record for the concrete runs. -/
def exWeather : WeatherData :=
  { temp := 25, feels_like := 25, humidity := 40, pressure := 1000,
    wind_speed := 3, wind_deg := 90, wind_gust := some 5,
    visibility := 10000, description := "clear", icon := "01d" }

/-- Build a concrete polled reading. -/
def mkReading (ts : Nat) (t h s : ℚ) (fire : Bool) (dev : String) :
    SensorReading :=
  { id := toString ts, deviceId := dev, latitude := 30, longitude := 78,
    humidity := h, temp := t, smoke := s, isFire := fire, timestamp := ts,
    name := "Sensor " ++ dev,
    status := if fire then "warning" else "active" }

/-- Fresh monitoring state with weather available. -/
def exInit : MonitoringState :=
  { sensorReadings := [], currentSession := none, activeSessions := [],
    completedSessions := [], mlPredictions := [], weatherData := some exWeather,
    savedStore := [] }

/-- Fresh monitoring state with no weather data yet. -/
def exInitNoWeather : MonitoringState :=
  { exInit with weatherData := none }

/-- The four readings of the end-to-end example of §8.7. -/
def exC2R1 : SensorReading := mkReading 1 22 10 1 false "DEV-1"

def exC2R2 : SensorReading := mkReading 2 41 20 2 true "DEV-1"

def exC2R3 : SensorReading := mkReading 3 45 30 3 true "DEV-1"

def exC2R4 : SensorReading := mkReading 4 23 40 4 false "DEV-1"

def exC2S1 : MonitoringState := step exInit 101 exC2R1

def exC2S2 : MonitoringState := step exC2S1 102 exC2R2

def exC2S3 : MonitoringState := step exC2S2 103 exC2R3

def exC2S4 : MonitoringState := step exC2S3 104 exC2R4

/-! ### Basic frame and unfolding lemmas -/

/-- Weather enhancement changes only the attached weather block. -/
theorem processReadingWithWeather_fields (r : SensorReading)
    (ow : Option WeatherData) :
    (processReadingWithWeather r ow).temp = r.temp ∧
    (processReadingWithWeather r ow).humidity = r.humidity ∧
    (processReadingWithWeather r ow).smoke = r.smoke ∧
    (processReadingWithWeather r ow).isFire = r.isFire ∧
    (processReadingWithWeather r ow).timestamp = r.timestamp ∧
    (processReadingWithWeather r ow).deviceId = r.deviceId := by
  cases ow <;> simp [processReadingWithWeather]

/-- Ingestion touches only the reading history. -/
theorem ingestReading_frame (st : MonitoringState) (r : SensorReading) :
    (ingestReading st r).currentSession = st.currentSession ∧
    (ingestReading st r).activeSessions = st.activeSessions ∧
    (ingestReading st r).completedSessions = st.completedSessions ∧
    (ingestReading st r).savedStore = st.savedStore ∧
    (ingestReading st r).mlPredictions = st.mlPredictions ∧
    (ingestReading st r).weatherData = st.weatherData := by
  unfold ingestReading
  split <;> simp

/-- On an accepted (non-duplicate) reading the history becomes the
weather-enhanced reading consed onto the capped previous history. -/
theorem ingestReading_sensorReadings (st : MonitoringState) (r : SensorReading)
    (hd : isDuplicateReading r st.sensorReadings = false) :
    (ingestReading st r).sensorReadings =
      processReadingWithWeather r st.weatherData :: st.sensorReadings.take 19 := by
  cases hw : st.weatherData <;>
    simp [ingestReading, hd, hw, processReadingWithWeather, List.take_succ_cons]

/-- The session-tracking effect never modifies the reading history, the
prediction list or the weather. -/
theorem sessionTrackingStep_frame (st : MonitoringState) (now : Nat) :
    (sessionTrackingStep st now).sensorReadings = st.sensorReadings ∧
    (sessionTrackingStep st now).mlPredictions = st.mlPredictions ∧
    (sessionTrackingStep st now).weatherData = st.weatherData := by
  unfold sessionTrackingStep trackReading
  split
  · split <;> (dsimp only; split <;> simp)
  · simp

/-- With no weather data the session-tracking effect is the identity. -/
theorem sessionTrackingStep_no_weather (st : MonitoringState) (now : Nat)
    (hw : st.weatherData = none) :
    sessionTrackingStep st now = st := by
  unfold sessionTrackingStep
  split
  · next heq hweq => rw [hw] at hweq; cases hweq
  · rfl

/-! ### Store-cap helper lemmas -/

/-- Taking ten of a list that already truncates its tail at nine behind a
nonempty front is the same as taking ten of the untruncated list. -/
theorem take_append_cons_take {α : Type} (A : List α) (c : α) (B : List α)
    (hA : 1 ≤ A.length) :
    (A ++ c :: B.take 9).take 10 = (A ++ c :: B).take 10 := by
  rw [List.take_append_eq_append_take, List.take_append_eq_append_take]
  congr 1
  rcases hk : 10 - A.length with _ | j
  · simp
  · have hj : j ≤ 8 := by omega
    rw [List.take_succ_cons, List.take_succ_cons, List.take_take]
    rw [min_eq_left (by omega : j ≤ 9)]

/-- Folding the close-persistence shape over a nonempty closure sequence
yields the ten most recent entries, newest first. -/
theorem foldl_persistClose_eq :
    ∀ (closures : List FireAlertSession), closures ≠ [] →
      ∀ (store0 : List FireAlertSession),
        closures.foldl persistClose store0 =
          (closures.reverse ++ store0).take 10
  | [], h, _ => absurd rfl h
  | [c], _, store0 => by simp [persistClose, List.take_succ_cons]
  | c :: d :: ds, _, store0 => by
    rw [List.foldl_cons,
      foldl_persistClose_eq (d :: ds) (by simp) (persistClose store0 c)]
    show ((d :: ds).reverse ++ (c :: store0.take 9)).take 10 =
      ((c :: d :: ds).reverse ++ store0).take 10
    have hre : (c :: d :: ds).reverse ++ store0 =
        (d :: ds).reverse ++ (c :: store0) := by simp
    rw [hre]
    exact take_append_cons_take _ c _ (by simp)

/-! ### Claim theorems -/

/-- C2: the end-to-end example. For the readings
[{isFire:false, temp:22}, {isFire:true, temp:41}, {isFire:true, temp:45},
{isFire:false, temp:23}] of device DEV-1 at timestamps 1..4 with no ML
predictions present: no session after reading 1; one active session opened
at reading 2 with maxTemp = 41; after reading 3 the session has
maxTemp = 45 and avgTemp = 43; after reading 4 the session is completed
with endTime equal to reading 4's timestamp and exactly 2 readings. -/
theorem session_lifecycle_example :
    (exC2S1.currentSession = none ∧ exC2S1.activeSessions = [] ∧
      exC2S1.completedSessions = []) ∧
    (exC2S2.currentSession.map
        (fun s => (s.maxTemp, s.startTime, s.readings.length)) =
      some (41, 2, 1) ∧
      exC2S2.activeSessions.length = 1) ∧
    (exC2S3.currentSession.map
        (fun s => (s.maxTemp, s.avgTemp, s.readings.length)) =
      some (45, 43, 2)) ∧
    (exC2S4.currentSession = none ∧
      exC2S4.completedSessions.map
          (fun s => (s.endTime, s.status, s.readings.length)) =
        [(some 4, SessionStatus.completed, 2)]) := by
  refine ⟨by decide, by decide, ?_, by decide⟩
  norm_num [exC2S3, exC2S2, exC2S1, exInit, step, ingestReading,
    sessionTrackingStep, trackReading, isDuplicateReading,
    processReadingWithWeather, recentPredictionsFor, openSession,
    extendSession, closeSessionUpd, persistClose, exC2R1, exC2R2, exC2R3,
    mkReading, exWeather]

/-- C7: the Reading Ingestor is total and defaulting — on any raw device
record whose sensor channels, fire flag and timestamps are absent, the
normalized reading carries humidity = temperature = smoke = 0,
isFire = false, and the ingestion time as timestamp. (The embedding
`convertDevice` is a total function, so no input makes it fail.) -/
theorem ingestor_total_defaults (device : RawDevice) (now : Nat)
    (h1 : device.humidity = none) (h2 : device.temp = none)
    (h3 : device.temperature = none) (h4 : device.smoke = none)
    (h5 : device.isfire = none) (h6 : device.isFire = none)
    (h7 : device.lastUpdate = none) (h8 : device.timestamp = none) :
    (convertDevice device now).humidity = 0 ∧
    (convertDevice device now).temp = 0 ∧
    (convertDevice device now).smoke = 0 ∧
    (convertDevice device now).isFire = false ∧
    (convertDevice device now).timestamp = now := by
  simp [convertDevice, jsOrQ, jsOrBool, jsOrNat, h1, h2, h3, h4, h5, h6, h7, h8]

/-- Witness for C7: the fully absent raw record at ingestion time 7. -/
theorem ingestor_total_defaults_witness :
    (convertDevice {} 7).humidity = 0 ∧
    (convertDevice {} 7).temp = 0 ∧
    (convertDevice {} 7).smoke = 0 ∧
    (convertDevice {} 7).isFire = false ∧
    (convertDevice {} 7).timestamp = 7 :=
  ingestor_total_defaults {} 7 rfl rfl rfl rfl rfl rfl rfl rfl

/-- C8: the persisted session collection is bounded at 10 and
most-recent-first. Both the in-memory completed list and the durable store
evolve by `persistClose` on every closure; folding any nonempty closure
sequence over any initial store leaves exactly the ten most recent
sessions, newest closure at the head. -/
theorem session_store_cap (closures : List FireAlertSession)
    (store0 : List FireAlertSession) (h : closures ≠ []) :
    closures.foldl persistClose store0 = (closures.reverse ++ store0).take 10 ∧
    (closures.foldl persistClose store0).length ≤ 10 ∧
    (closures.foldl persistClose store0).head? = closures.reverse.head? := by
  have heq := foldl_persistClose_eq closures h store0
  refine ⟨heq, ?_, ?_⟩
  · rw [heq]; exact List.length_take_le _ _
  · rw [heq]
    rcases hrev : closures.reverse with _ | ⟨x, xs⟩
    · exact absurd (List.reverse_eq_nil_iff.mp hrev) h
    · simp

/-- A dummy completed session, indexed so that distinct indices give
distinct sessions. -/
def mkSession (n : Nat) : FireAlertSession :=
  { id := "session-" ++ toString n, deviceId := "DEV-1", startTime := n,
    endTime := some (n + 1), readings := [mkReading n 30 10 1 true "DEV-1"],
    mlPredictions := [], maxTemp := 30, minTemp := 30, avgTemp := 30,
    maxSmoke := 1, minSmoke := 1, avgSmoke := 1, maxHumidity := 10,
    minHumidity := 10, avgHumidity := 10, status := SessionStatus.completed,
    mlConfirmed := false }

/-- Thirteen closures, as in the spec's cap-enforcement example. -/
def exClosures : List FireAlertSession := (List.range 13).map mkSession

/-- Witness for C8: thirteen closures into an empty store. -/
theorem session_store_cap_witness :
    exClosures.foldl persistClose [] =
      (exClosures.reverse ++ []).take 10 ∧
    (exClosures.foldl persistClose []).length ≤ 10 ∧
    (exClosures.foldl persistClose []).head? = exClosures.reverse.head? :=
  session_store_cap exClosures [] (by decide)

/-- C10: while weather data is unavailable the session-tracking effect is
guarded out, so processing any polled reading — fire or clear, duplicate
or fresh — leaves the tracked session, the active set, the completed set
and the persisted store unchanged. -/
theorem no_weather_no_session_transition (st : MonitoringState) (now : Nat)
    (r : SensorReading) (hw : st.weatherData = none) :
    (step st now r).currentSession = st.currentSession ∧
    (step st now r).activeSessions = st.activeSessions ∧
    (step st now r).completedSessions = st.completedSessions ∧
    (step st now r).savedStore = st.savedStore := by
  by_cases hd : isDuplicateReading r st.sensorReadings = true
  · simp [step, hd]
  · have hd' : isDuplicateReading r st.sensorReadings = false := by
      simpa using hd
    have h1 : (ingestReading st r).weatherData = none := by
      rw [(ingestReading_frame st r).2.2.2.2.2, hw]
    have h3 : step st now r = ingestReading st r := by
      simp [step, hd', sessionTrackingStep_no_weather (ingestReading st r) now h1]
    rw [h3]
    obtain ⟨a, b, c, d, _, _⟩ := ingestReading_frame st r
    exact ⟨a, b, c, d⟩

/-- Witness for C10: a fresh fire reading against a weatherless state. -/
theorem no_weather_no_session_transition_witness :
    exInitNoWeather.weatherData = none ∧
    ((step exInitNoWeather 5 (mkReading 1 50 10 5 true "DEV-1")).currentSession =
        exInitNoWeather.currentSession ∧
      (step exInitNoWeather 5 (mkReading 1 50 10 5 true "DEV-1")).activeSessions =
        exInitNoWeather.activeSessions ∧
      (step exInitNoWeather 5 (mkReading 1 50 10 5 true "DEV-1")).completedSessions =
        exInitNoWeather.completedSessions ∧
      (step exInitNoWeather 5 (mkReading 1 50 10 5 true "DEV-1")).savedStore =
        exInitNoWeather.savedStore) :=
  ⟨rfl, no_weather_no_session_transition exInitNoWeather 5
    (mkReading 1 50 10 5 true "DEV-1") rfl⟩

/-- With a non-empty history and weather available, the session-tracking
effect evaluates the transition rule on the head of the history. -/
theorem sessionTrackingStep_eq_track (st : MonitoringState) (now : Nat)
    (a : SensorReading) (rest : List SensorReading) (w : WeatherData)
    (h1 : st.sensorReadings = a :: rest) (h2 : st.weatherData = some w) :
    sessionTrackingStep st now = trackReading st a now := by
  unfold sessionTrackingStep
  split
  · rename_i lr tail w2 heq hweq
    rw [h1] at heq
    cases heq
    rfl
  · rename_i hcontra
    exact (hcontra a rest w h1 h2).elim

/-- After one evaluation of the transition rule a session is live exactly
when the tracking decision held: `isFire OR some correlated completed
prediction = 1`. -/
theorem trackReading_opens_or_keeps (st : MonitoringState)
    (lr : SensorReading) (now : Nat) :
    (trackReading st lr now).currentSession.isSome =
      (lr.isFire ||
        ((recentPredictionsFor st.mlPredictions lr).any fun pred =>
          pred.prediction == 1)) := by
  unfold trackReading
  cases hc : st.currentSession <;> (dsimp only; split <;> simp_all)

/-- The boolean tracking decision, read back as the spec's proposition. -/
theorem shouldTrack_iff (preds : List MLPrediction) (r lr : SensorReading)
    (ht : lr.temp = r.temp) (hh : lr.humidity = r.humidity)
    (hs : lr.smoke = r.smoke) (hf : lr.isFire = r.isFire) :
    ((lr.isFire ||
        ((recentPredictionsFor preds lr).any fun pred =>
          pred.prediction == 1)) = true) ↔
      (r.isFire = true ∨ ∃ p ∈ preds,
        p.status = PredStatus.completed ∧
        p.input_data.temperature = r.temp ∧
        p.input_data.humidity = r.humidity ∧
        p.input_data.smoke = r.smoke ∧
        p.prediction = 1) := by
  simp only [recentPredictionsFor, Bool.or_eq_true, List.any_eq_true,
    List.mem_filter, Bool.and_eq_true, beq_iff_eq, ht, hh, hs, hf, and_assoc]
  constructor
  · rintro (hfire | ⟨p, hp, h1, h2, h3, h4, h5⟩)
    · exact Or.inl hfire
    · exact Or.inr ⟨p, hp, h4, h1, h2, h3, h5⟩
  · rintro (hfire | ⟨p, hp, h4, h1, h2, h3, h5⟩)
    · exact Or.inl hfire
    · exact Or.inr ⟨p, hp, h1, h2, h3, h4, h5⟩

/-- C6: duplicate suppression is idempotent. A candidate is a duplicate
iff some retained reading agrees on timestamp, temperature, humidity and
smoke (device identity is not consulted), and feeding the identical
reading twice in a row changes the state exactly once: the second feed is
the identity on the whole monitoring state. -/
theorem duplicate_suppression_idempotent :
    (∀ (newReading : SensorReading) (existingReadings : List SensorReading),
      isDuplicateReading newReading existingReadings = true ↔
        ∃ reading ∈ existingReadings,
          reading.timestamp = newReading.timestamp ∧
          reading.temp = newReading.temp ∧
          reading.humidity = newReading.humidity ∧
          reading.smoke = newReading.smoke) ∧
    (∀ (st : MonitoringState) (n m : Nat) (r : SensorReading),
      step (step st n r) m r = step st n r) := by
  constructor
  · intro newReading existingReadings
    simp [isDuplicateReading, List.any_eq_true, and_assoc]
  · intro st n m r
    by_cases hd : isDuplicateReading r st.sensorReadings = true
    · have h1 : step st n r = st := by simp [step, hd]
      rw [h1]
      simp [step, hd]
    · have hd' : isDuplicateReading r st.sensorReadings = false := by
        simpa using hd
      have hsr : (step st n r).sensorReadings =
          processReadingWithWeather r st.weatherData ::
            st.sensorReadings.take 19 := by
        have e1 : step st n r = sessionTrackingStep (ingestReading st r) n := by
          simp [step, hd']
        rw [e1, (sessionTrackingStep_frame _ _).1,
          ingestReading_sensorReadings st r hd']
      have hdup2 : isDuplicateReading r (step st n r).sensorReadings = true := by
        rw [hsr]
        obtain ⟨ht, hh, hs, _, hts, _⟩ :=
          processReadingWithWeather_fields r st.weatherData
        apply List.any_eq_true.mpr
        exact ⟨processReadingWithWeather r st.weatherData,
          List.mem_cons_self _ _, by simp [ht, hh, hs, hts]⟩
      have e1 : step st n r = sessionTrackingStep (ingestReading st r) n := by
        simp [step, hd']
      rw [e1] at hdup2
      rw [e1]
      simp [step, hdup2]

/-- C1: for every accepted (non-duplicate) reading processed by the
Session Tracker (weather present), the tracking decision is
`reading.isFire OR (a correlated completed prediction has prediction = 1)`
— a completed prediction of 2 never counts — and after the evaluation a
session is live exactly when that decision held: it is opened exactly when
the decision holds and no session was active, and an active session
survives (is extended) exactly when the decision holds. -/
theorem tracking_decision_correct (st : MonitoringState) (w : WeatherData)
    (now : Nat) (r : SensorReading)
    (hw : st.weatherData = some w)
    (hd : isDuplicateReading r st.sensorReadings = false) :
    (st.currentSession = none →
      ((step st now r).currentSession.isSome = true ↔
        (r.isFire = true ∨ ∃ p ∈ st.mlPredictions,
          p.status = PredStatus.completed ∧
          p.input_data.temperature = r.temp ∧
          p.input_data.humidity = r.humidity ∧
          p.input_data.smoke = r.smoke ∧
          p.prediction = 1))) ∧
    (∀ cur, st.currentSession = some cur →
      ((step st now r).currentSession.isSome = true ↔
        (r.isFire = true ∨ ∃ p ∈ st.mlPredictions,
          p.status = PredStatus.completed ∧
          p.input_data.temperature = r.temp ∧
          p.input_data.humidity = r.humidity ∧
          p.input_data.smoke = r.smoke ∧
          p.prediction = 1))) := by
  have hwf := (ingestReading_frame st r).2.2.2.2.2
  have hmlf := (ingestReading_frame st r).2.2.2.2.1
  have e1 : step st now r = trackReading (ingestReading st r)
      (processReadingWithWeather r st.weatherData) now := by
    have e0 : step st now r = sessionTrackingStep (ingestReading st r) now := by
      simp [step, hd]
    rw [e0]
    exact sessionTrackingStep_eq_track _ now _ _ w
      (ingestReading_sensorReadings st r hd) (by rw [hwf]; exact hw)
  obtain ⟨ht, hh, hs, hf, _, _⟩ := processReadingWithWeather_fields r st.weatherData
  have key : (step st now r).currentSession.isSome = true ↔
      (r.isFire = true ∨ ∃ p ∈ st.mlPredictions,
        p.status = PredStatus.completed ∧
        p.input_data.temperature = r.temp ∧
        p.input_data.humidity = r.humidity ∧
        p.input_data.smoke = r.smoke ∧
        p.prediction = 1) := by
    rw [e1, trackReading_opens_or_keeps, hmlf]
    exact shouldTrack_iff st.mlPredictions r _ ht hh hs hf
  exact ⟨fun _ => key, fun cur _ => key⟩

/-- Witness for C1: a fresh fire reading against the empty state with
weather available. -/
theorem tracking_decision_correct_witness :
    (exInit.currentSession = none →
      ((step exInit 9 (mkReading 1 50 10 5 true "DEV-1")).currentSession.isSome = true ↔
        ((mkReading 1 50 10 5 true "DEV-1").isFire = true ∨
          ∃ p ∈ exInit.mlPredictions,
            p.status = PredStatus.completed ∧
            p.input_data.temperature = (mkReading 1 50 10 5 true "DEV-1").temp ∧
            p.input_data.humidity = (mkReading 1 50 10 5 true "DEV-1").humidity ∧
            p.input_data.smoke = (mkReading 1 50 10 5 true "DEV-1").smoke ∧
            p.prediction = 1))) ∧
    (∀ cur, exInit.currentSession = some cur →
      ((step exInit 9 (mkReading 1 50 10 5 true "DEV-1")).currentSession.isSome = true ↔
        ((mkReading 1 50 10 5 true "DEV-1").isFire = true ∨
          ∃ p ∈ exInit.mlPredictions,
            p.status = PredStatus.completed ∧
            p.input_data.temperature = (mkReading 1 50 10 5 true "DEV-1").temp ∧
            p.input_data.humidity = (mkReading 1 50 10 5 true "DEV-1").humidity ∧
            p.input_data.smoke = (mkReading 1 50 10 5 true "DEV-1").smoke ∧
            p.prediction = 1))) :=
  tracking_decision_correct exInit exWeather 9
    (mkReading 1 50 10 5 true "DEV-1") rfl (by decide)

/-! ### A case analysis of one step, used by the invariant claims -/

/-- Evaluating the transition rule with no tracked session: open on a
positive decision, otherwise no change. -/
theorem trackReading_none_eq (st : MonitoringState) (lr : SensorReading)
    (now : Nat) (hc : st.currentSession = none) :
    trackReading st lr now =
      (if (lr.isFire ||
          ((recentPredictionsFor st.mlPredictions lr).any fun pred =>
            pred.prediction == 1)) then
        { st with
          currentSession := some (openSession lr
            (recentPredictionsFor st.mlPredictions lr)
            ((recentPredictionsFor st.mlPredictions lr).any fun pred =>
              pred.prediction == 1) now)
          activeSessions := st.activeSessions ++ [openSession lr
            (recentPredictionsFor st.mlPredictions lr)
            ((recentPredictionsFor st.mlPredictions lr).any fun pred =>
              pred.prediction == 1) now] }
      else st) := by
  unfold trackReading
  rw [hc]

/-- Evaluating the transition rule with a tracked session: extend on a
positive decision, otherwise close and persist. -/
theorem trackReading_some_eq (st : MonitoringState) (lr : SensorReading)
    (now : Nat) (cur : FireAlertSession)
    (hc : st.currentSession = some cur) :
    trackReading st lr now =
      (if (lr.isFire ||
          ((recentPredictionsFor st.mlPredictions lr).any fun pred =>
            pred.prediction == 1)) then
        { st with
          currentSession := some (extendSession cur lr
            (recentPredictionsFor st.mlPredictions lr)
            ((recentPredictionsFor st.mlPredictions lr).any fun pred =>
              pred.prediction == 1))
          activeSessions := st.activeSessions.map fun s =>
            if s.id == (extendSession cur lr
              (recentPredictionsFor st.mlPredictions lr)
              ((recentPredictionsFor st.mlPredictions lr).any fun pred =>
                pred.prediction == 1)).id
            then extendSession cur lr
              (recentPredictionsFor st.mlPredictions lr)
              ((recentPredictionsFor st.mlPredictions lr).any fun pred =>
                pred.prediction == 1)
            else s }
      else
        { st with
          currentSession := none
          activeSessions := st.activeSessions.filter fun s =>
            !(s.id == (closeSessionUpd cur lr.timestamp).id)
          completedSessions := persistClose st.completedSessions
            (closeSessionUpd cur lr.timestamp)
          savedStore := persistClose st.savedStore
            (closeSessionUpd cur lr.timestamp) }) := by
  unfold trackReading
  rw [hc]

/-- One step either leaves all session state unchanged, opens a session
when none was tracked, or extends respectively closes the tracked
session. -/
theorem step_component_cases (st : MonitoringState) (now : Nat)
    (r : SensorReading) :
    ((step st now r).currentSession = st.currentSession ∧
     (step st now r).activeSessions = st.activeSessions ∧
     (step st now r).completedSessions = st.completedSessions ∧
     (step st now r).savedStore = st.savedStore) ∨
    (∃ recent b,
      recent = recentPredictionsFor st.mlPredictions
        (processReadingWithWeather r st.weatherData) ∧
      b = (recent.any fun pred => pred.prediction == 1) ∧
      ((st.currentSession = none ∧
        (step st now r).currentSession = some (openSession
          (processReadingWithWeather r st.weatherData) recent b now) ∧
        (step st now r).activeSessions = st.activeSessions ++ [openSession
          (processReadingWithWeather r st.weatherData) recent b now] ∧
        (step st now r).completedSessions = st.completedSessions ∧
        (step st now r).savedStore = st.savedStore) ∨
      (∃ cur, st.currentSession = some cur ∧
        (((step st now r).currentSession = some (extendSession cur
            (processReadingWithWeather r st.weatherData) recent b) ∧
          (step st now r).activeSessions = st.activeSessions.map (fun s =>
            if s.id == (extendSession cur
              (processReadingWithWeather r st.weatherData) recent b).id
            then extendSession cur
              (processReadingWithWeather r st.weatherData) recent b
            else s) ∧
          (step st now r).completedSessions = st.completedSessions ∧
          (step st now r).savedStore = st.savedStore) ∨
        ((step st now r).currentSession = none ∧
          (step st now r).activeSessions = st.activeSessions.filter (fun s =>
            !(s.id == (closeSessionUpd cur r.timestamp).id)) ∧
          (step st now r).completedSessions = persistClose
            st.completedSessions (closeSessionUpd cur r.timestamp) ∧
          (step st now r).savedStore = persistClose
            st.savedStore (closeSessionUpd cur r.timestamp)))))) := by
  by_cases hd : isDuplicateReading r st.sensorReadings = true
  · left
    simp [step, hd]
  · have hd' : isDuplicateReading r st.sensorReadings = false := by
      simpa using hd
    obtain ⟨hcf, haf, hcompf, hsf, hmlf, hwf⟩ := ingestReading_frame st r
    obtain ⟨_, _, _, _, hts, _⟩ :=
      processReadingWithWeather_fields r st.weatherData
    rcases hw : st.weatherData with _ | w
    · left
      have e1 : step st now r = ingestReading st r := by
        simp [step, hd',
          sessionTrackingStep_no_weather (ingestReading st r) now
            (by rw [hwf, hw])]
      rw [e1]
      exact ⟨hcf, haf, hcompf, hsf⟩
    · have e1 : step st now r = trackReading (ingestReading st r)
          (processReadingWithWeather r st.weatherData) now := by
        have e0 : step st now r =
            sessionTrackingStep (ingestReading st r) now := by
          simp [step, hd']
        rw [e0]
        exact sessionTrackingStep_eq_track _ now _ _ w
          (ingestReading_sensorReadings st r hd') (by rw [hwf]; exact hw)
      rw [hw] at e1 hts
      rcases hc : st.currentSession with _ | cur
      · have hcc : (ingestReading st r).currentSession = none := by
          rw [hcf, hc]
        rw [trackReading_none_eq _ _ _ hcc, hmlf] at e1
        split at e1
        · right
          refine ⟨_, _, rfl, rfl, Or.inl ⟨rfl, ?_, ?_, ?_, ?_⟩⟩ <;>
            rw [e1] <;> simp [haf, hcompf, hsf]
        · left
          rw [e1]
          exact ⟨hcc, haf, hcompf, hsf⟩
      · have hcc : (ingestReading st r).currentSession = some cur := by
          rw [hcf, hc]
        rw [trackReading_some_eq _ _ _ cur hcc, hmlf] at e1
        split at e1
        · right
          refine ⟨_, _, rfl, rfl, Or.inr ⟨cur, rfl,
            Or.inl ⟨?_, ?_, ?_, ?_⟩⟩⟩ <;>
            rw [e1] <;> simp [haf, hcompf, hsf]
        · right
          refine ⟨_, _, rfl, rfl, Or.inr ⟨cur, rfl,
            Or.inr ⟨?_, ?_, ?_, ?_⟩⟩⟩ <;>
            rw [e1] <;> rw [← hts] <;> simp [haf, hcompf, hsf]

/-! ### C3: aggregate-bounds invariant -/

/-- Well-formedness of a session's aggregates: the readings list is
nonempty, every retained reading lies between the recorded extrema, and
each average is the mean over the retained readings. -/
def SessionWF (s : FireAlertSession) : Prop :=
  s.readings ≠ [] ∧
  (∀ x ∈ s.readings,
    s.minTemp ≤ x.temp ∧ x.temp ≤ s.maxTemp ∧
    s.minSmoke ≤ x.smoke ∧ x.smoke ≤ s.maxSmoke ∧
    s.minHumidity ≤ x.humidity ∧ x.humidity ≤ s.maxHumidity) ∧
  s.avgTemp = (s.readings.map (fun x => x.temp)).sum /
    ((s.readings.length : ℚ)) ∧
  s.avgSmoke = (s.readings.map (fun x => x.smoke)).sum /
    ((s.readings.length : ℚ)) ∧
  s.avgHumidity = (s.readings.map (fun x => x.humidity)).sum /
    ((s.readings.length : ℚ))

/-- The mean of a nonempty list lies between any lower and upper bound of
its members. -/
theorem avg_between (l : List ℚ) (lo hi : ℚ) (hne : l ≠ [])
    (hlo : ∀ x ∈ l, lo ≤ x) (hhi : ∀ x ∈ l, x ≤ hi) :
    lo ≤ l.sum / (l.length : ℚ) ∧ l.sum / (l.length : ℚ) ≤ hi := by
  have hpos : (0 : ℚ) < (l.length : ℚ) := by
    exact_mod_cast List.length_pos.mpr hne
  constructor
  · rw [le_div_iff₀ hpos]
    calc lo * (l.length : ℚ) = l.length • lo := by
          rw [nsmul_eq_mul, mul_comm]
      _ ≤ l.sum := List.card_nsmul_le_sum l lo hlo
  · rw [div_le_iff₀ hpos]
    calc l.sum ≤ l.length • hi := List.sum_le_card_nsmul l hi hhi
      _ = hi * (l.length : ℚ) := by rw [nsmul_eq_mul, mul_comm]

/-- A freshly opened session is well formed: all aggregates are seeded
from its single reading. -/
theorem openSession_wf (lr : SensorReading) (recent : List MLPrediction)
    (b : Bool) (now : Nat) : SessionWF (openSession lr recent b now) := by
  refine ⟨by simp [openSession], ?_, ?_, ?_, ?_⟩ <;> simp [openSession]

/-- Extension preserves session well-formedness: the new extrema bound
both the new reading and every survivor of the 50-element cap, and the
averages are recomputed over the retained list. -/
theorem extendSession_wf (cur : FireAlertSession) (lr : SensorReading)
    (recent : List MLPrediction) (b : Bool) (h : SessionWF cur) :
    SessionWF (extendSession cur lr recent b) := by
  obtain ⟨hne, hb, hat, has, hah⟩ := h
  refine ⟨by simp [extendSession], ?_, ?_, ?_, ?_⟩
  · intro x hx
    simp only [extendSession, List.mem_cons] at hx
    simp only [extendSession]
    rcases hx with rfl | hx2
    · exact ⟨min_le_right _ _, le_max_right _ _, min_le_right _ _,
        le_max_right _ _, min_le_right _ _, le_max_right _ _⟩
    · obtain ⟨b1, b2, b3, b4, b5, b6⟩ := hb x (List.take_subset _ _ hx2)
      exact ⟨le_trans (min_le_left _ _) b1, le_trans b2 (le_max_left _ _),
        le_trans (min_le_left _ _) b3, le_trans b4 (le_max_left _ _),
        le_trans (min_le_left _ _) b5, le_trans b6 (le_max_left _ _)⟩
  · simp [extendSession]
  · simp [extendSession]
  · simp [extendSession]

/-- The aggregate-bounds consequence of well-formedness:
min ≤ avg ≤ max on every channel. -/
theorem sessionWF_avg_bounds (s : FireAlertSession) (h : SessionWF s) :
    (s.minTemp ≤ s.avgTemp ∧ s.avgTemp ≤ s.maxTemp) ∧
    (s.minSmoke ≤ s.avgSmoke ∧ s.avgSmoke ≤ s.maxSmoke) ∧
    (s.minHumidity ≤ s.avgHumidity ∧ s.avgHumidity ≤ s.maxHumidity) := by
  obtain ⟨hne, hb, hat, has, hah⟩ := h
  have hmt := avg_between (s.readings.map (fun x => x.temp)) s.minTemp
    s.maxTemp (by simpa using hne)
    (by intro x hx; obtain ⟨y, hy, rfl⟩ := List.mem_map.mp hx
        exact (hb y hy).1)
    (by intro x hx; obtain ⟨y, hy, rfl⟩ := List.mem_map.mp hx
        exact (hb y hy).2.1)
  have hms := avg_between (s.readings.map (fun x => x.smoke)) s.minSmoke
    s.maxSmoke (by simpa using hne)
    (by intro x hx; obtain ⟨y, hy, rfl⟩ := List.mem_map.mp hx
        exact (hb y hy).2.2.1)
    (by intro x hx; obtain ⟨y, hy, rfl⟩ := List.mem_map.mp hx
        exact (hb y hy).2.2.2.1)
  have hmh := avg_between (s.readings.map (fun x => x.humidity)) s.minHumidity
    s.maxHumidity (by simpa using hne)
    (by intro x hx; obtain ⟨y, hy, rfl⟩ := List.mem_map.mp hx
        exact (hb y hy).2.2.2.2.1)
    (by intro x hx; obtain ⟨y, hy, rfl⟩ := List.mem_map.mp hx
        exact (hb y hy).2.2.2.2.2)
  rw [List.length_map] at hmt hms hmh
  rw [hat, has, hah]
  exact ⟨hmt, hms, hmh⟩

/-- Whenever a session is tracked, it is well formed. -/
def StateWF (st : MonitoringState) : Prop :=
  ∀ s, st.currentSession = some s → SessionWF s

/-- One step preserves session well-formedness. -/
theorem step_stateWF (st : MonitoringState) (now : Nat) (r : SensorReading)
    (h : StateWF st) : StateWF (step st now r) := by
  intro s hs
  rcases step_component_cases st now r with ⟨e1, _, _, _⟩ |
    ⟨recent, b, hrec, hb, hcase⟩
  · exact h s (by rw [← e1]; exact hs)
  · rcases hcase with ⟨hnone, ho1, _, _, _⟩ |
      ⟨cur, hcur, ⟨he1, _, _, _⟩ | ⟨hc1, _, _, _⟩⟩
    · rw [ho1] at hs
      cases hs
      exact openSession_wf _ _ _ _
    · rw [he1] at hs
      cases hs
      exact extendSession_wf _ _ _ _ (h cur hcur)
    · rw [hc1] at hs
      cases hs

/-- Processing any event sequence preserves session well-formedness. -/
theorem runSteps_stateWF (st : MonitoringState)
    (events : List (Nat × SensorReading)) (h : StateWF st) :
    StateWF (runSteps st events) := by
  induction events generalizing st with
  | nil => exact h
  | cons p ps ih => exact ih (step st p.1 p.2) (step_stateWF st p.1 p.2 h)

/-- C3: for every session and any sequence of processed readings, after
opening and after each extension the tracked session satisfies
minTemp ≤ avgTemp ≤ maxTemp, and likewise for smoke and humidity — also
when old readings have been evicted by the 50-element readings cap. -/
theorem aggregate_bounds_invariant (st0 : MonitoringState)
    (events : List (Nat × SensorReading))
    (h0 : ∀ s, st0.currentSession = some s → SessionWF s) :
    ∀ s, (runSteps st0 events).currentSession = some s →
      (s.minTemp ≤ s.avgTemp ∧ s.avgTemp ≤ s.maxTemp) ∧
      (s.minSmoke ≤ s.avgSmoke ∧ s.avgSmoke ≤ s.maxSmoke) ∧
      (s.minHumidity ≤ s.avgHumidity ∧ s.avgHumidity ≤ s.maxHumidity) :=
  fun s hs => sessionWF_avg_bounds s (runSteps_stateWF st0 events h0 s hs)

/-- The session opened by the C3 witness run. -/
def exOpenedSession : FireAlertSession :=
  openSession (processReadingWithWeather (mkReading 5 37 12 3 true "DEV-1")
    (some exWeather)) [] false 11

/-- Witness for C3: one fire reading opens a session from the empty state
and its aggregates are bounded. -/
theorem aggregate_bounds_invariant_witness :
    ((runSteps exInit [(11, mkReading 5 37 12 3 true "DEV-1")]).currentSession =
      some exOpenedSession) ∧
    ((exOpenedSession.minTemp ≤ exOpenedSession.avgTemp ∧
        exOpenedSession.avgTemp ≤ exOpenedSession.maxTemp) ∧
      (exOpenedSession.minSmoke ≤ exOpenedSession.avgSmoke ∧
        exOpenedSession.avgSmoke ≤ exOpenedSession.maxSmoke) ∧
      (exOpenedSession.minHumidity ≤ exOpenedSession.avgHumidity ∧
        exOpenedSession.avgHumidity ≤ exOpenedSession.maxHumidity)) :=
  ⟨rfl,
    aggregate_bounds_invariant exInit [(11, mkReading 5 37 12 3 true "DEV-1")]
      (fun _ hs => Option.noConfusion hs) exOpenedSession rfl⟩

/-! ### C4: device scoping -/

/-- A fire reading from device A. -/
def exDevA : SensorReading := mkReading 1 30 10 1 true "A"

/-- A fire reading from device B, not a duplicate of the one from A. -/
def exDevB : SensorReading := mkReading 2 31 11 2 true "B"

/-- Counterexample for C4: the extension step never compares deviceIds, so
a fire reading from device B arriving while device A's session is active
is stored into that session — the tracked session for device A ends up
holding a reading whose deviceId is B. -/
theorem device_scope_counterexample :
    ((step (step exInit 201 exDevA) 202 exDevB).currentSession.map
      (fun s => (s.deviceId, s.readings.map (fun x => x.deviceId)))) =
      some ("A", ["B", "A"]) ∧ ("B" : String) ≠ "A" := by
  exact ⟨rfl, by decide⟩

/-- Session s is scoped to device d: its deviceId is d and so is every
retained reading's. -/
def sessionScoped (d : String) (s : FireAlertSession) : Prop :=
  s.deviceId = d ∧ ∀ x ∈ s.readings, x.deviceId = d

/-- Every session anywhere in the state is scoped to device d. -/
def StateScoped (d : String) (st : MonitoringState) : Prop :=
  (∀ s, st.currentSession = some s → sessionScoped d s) ∧
  (∀ s ∈ st.activeSessions, sessionScoped d s) ∧
  (∀ s ∈ st.completedSessions, sessionScoped d s) ∧
  (∀ s ∈ st.savedStore, sessionScoped d s)

/-- One step on a reading of device d preserves device scoping. -/
theorem step_stateScoped (d : String) (st : MonitoringState) (now : Nat)
    (r : SensorReading) (hr : r.deviceId = d) (h : StateScoped d st) :
    StateScoped d (step st now r) := by
  obtain ⟨hcur, hact, hcomp, hsav⟩ := h
  have hlr : (processReadingWithWeather r st.weatherData).deviceId = d := by
    rw [(processReadingWithWeather_fields r st.weatherData).2.2.2.2.2, hr]
  rcases step_component_cases st now r with ⟨e1, e2, e3, e4⟩ |
    ⟨recent, b, hrec, hb, hcase⟩
  · exact ⟨fun s hs => hcur s (by rw [← e1]; exact hs),
      fun s hs => hact s (by rw [← e2]; exact hs),
      fun s hs => hcomp s (by rw [← e3]; exact hs),
      fun s hs => hsav s (by rw [← e4]; exact hs)⟩
  · have hopenScoped : sessionScoped d (openSession
        (processReadingWithWeather r st.weatherData) recent b now) := by
      refine ⟨hlr, ?_⟩
      intro x hx
      simp only [openSession, List.mem_singleton] at hx
      rw [hx]
      exact hlr
    rcases hcase with ⟨hnone, ho1, ho2, ho3, ho4⟩ |
      ⟨cur, hcur2, ⟨he1, he2, he3, he4⟩ | ⟨hc1, hc2, hc3, hc4⟩⟩
    · refine ⟨?_, ?_, ?_, ?_⟩
      · intro s hs
        rw [ho1] at hs
        cases hs
        exact hopenScoped
      · intro s hs
        rw [ho2] at hs
        rcases List.mem_append.mp hs with hs2 | hs2
        · exact hact s hs2
        · rw [List.mem_singleton.mp hs2]
          exact hopenScoped
      · intro s hs
        rw [ho3] at hs
        exact hcomp s hs
      · intro s hs
        rw [ho4] at hs
        exact hsav s hs
    · have hcs := hcur cur hcur2
      have hextScoped : sessionScoped d (extendSession cur
          (processReadingWithWeather r st.weatherData) recent b) := by
        refine ⟨?_, ?_⟩
        · simp only [extendSession]
          exact hcs.1
        · intro x hx
          simp only [extendSession, List.mem_cons] at hx
          rcases hx with rfl | hx2
          · exact hlr
          · exact hcs.2 x (List.take_subset _ _ hx2)
      refine ⟨?_, ?_, ?_, ?_⟩
      · intro s hs
        rw [he1] at hs
        cases hs
        exact hextScoped
      · intro s hs
        rw [he2] at hs
        obtain ⟨x, hx, hfx⟩ := List.mem_map.mp hs
        by_cases hid : (x.id == (extendSession cur
            (processReadingWithWeather r st.weatherData) recent b).id) = true
        · rw [hid] at hfx
          simp only [if_true] at hfx
          rw [← hfx]
          exact hextScoped
        · rw [Bool.eq_false_iff.mpr hid] at hfx
          simp only [Bool.false_eq_true, if_false] at hfx
          rw [← hfx]
          exact hact x hx
      · intro s hs
        rw [he3] at hs
        exact hcomp s hs
      · intro s hs
        rw [he4] at hs
        exact hsav s hs
    · have hcs := hcur cur hcur2
      have hclScoped : sessionScoped d (closeSessionUpd cur r.timestamp) := by
        refine ⟨hcs.1, ?_⟩
        intro x hx
        simp only [closeSessionUpd] at hx
        exact hcs.2 x hx
      refine ⟨?_, ?_, ?_, ?_⟩
      · intro s hs
        rw [hc1] at hs
        cases hs
      · intro s hs
        rw [hc2] at hs
        exact hact s (List.mem_of_mem_filter hs)
      · intro s hs
        rw [hc3] at hs
        rcases List.mem_cons.mp hs with rfl | hs2
        · exact hclScoped
        · exact hcomp s (List.take_subset _ _ hs2)
      · intro s hs
        rw [hc4] at hs
        rcases List.mem_cons.mp hs with rfl | hs2
        · exact hclScoped
        · exact hsav s (List.take_subset _ _ hs2)

/-- C4 amended: a session is scoped to one device provided every accepted
reading processed while sessions exist comes from that device (the
extension step itself never re-checks deviceId). Under a single-device
event stream, every session — tracked, active, completed or persisted —
has the stream's deviceId and all its readings agree with the session's
deviceId. -/
theorem device_scope_single_device (d : String) (st0 : MonitoringState)
    (events : List (Nat × SensorReading))
    (h0 : StateScoped d st0)
    (hr : ∀ p ∈ events, (p.2).deviceId = d) :
    (∀ s, (runSteps st0 events).currentSession = some s →
      ∀ x ∈ s.readings, x.deviceId = s.deviceId) ∧
    (∀ s ∈ (runSteps st0 events).activeSessions,
      ∀ x ∈ s.readings, x.deviceId = s.deviceId) ∧
    (∀ s ∈ (runSteps st0 events).completedSessions,
      ∀ x ∈ s.readings, x.deviceId = s.deviceId) ∧
    (∀ s ∈ (runSteps st0 events).savedStore,
      ∀ x ∈ s.readings, x.deviceId = s.deviceId) := by
  have hfinal : StateScoped d (runSteps st0 events) := by
    induction events generalizing st0 with
    | nil => exact h0
    | cons p ps ih =>
      exact ih (step st0 p.1 p.2)
        (step_stateScoped d st0 p.1 p.2 (hr p (List.mem_cons_self p ps)) h0)
        (fun q hq => hr q (List.mem_cons_of_mem p hq))
  obtain ⟨f1, f2, f3, f4⟩ := hfinal
  exact ⟨fun s hs x hx => ((f1 s hs).2 x hx).trans (f1 s hs).1.symm,
    fun s hs x hx => ((f2 s hs).2 x hx).trans (f2 s hs).1.symm,
    fun s hs x hx => ((f3 s hs).2 x hx).trans (f3 s hs).1.symm,
    fun s hs x hx => ((f4 s hs).2 x hx).trans (f4 s hs).1.symm⟩

/-- Witness for C4 amended: two fire readings of one device. -/
theorem device_scope_single_device_witness :
    (StateScoped "DEV-1" exInit ∧
      ∀ p ∈ [((11 : Nat), mkReading 5 37 12 3 true "DEV-1"),
        ((12 : Nat), mkReading 6 39 13 4 true "DEV-1")],
        (p.2).deviceId = "DEV-1") ∧
    ((∀ s, (runSteps exInit [((11 : Nat), mkReading 5 37 12 3 true "DEV-1"),
        ((12 : Nat), mkReading 6 39 13 4 true "DEV-1")]).currentSession = some s →
      ∀ x ∈ s.readings, x.deviceId = s.deviceId) ∧
    (∀ s ∈ (runSteps exInit [((11 : Nat), mkReading 5 37 12 3 true "DEV-1"),
        ((12 : Nat), mkReading 6 39 13 4 true "DEV-1")]).activeSessions,
      ∀ x ∈ s.readings, x.deviceId = s.deviceId) ∧
    (∀ s ∈ (runSteps exInit [((11 : Nat), mkReading 5 37 12 3 true "DEV-1"),
        ((12 : Nat), mkReading 6 39 13 4 true "DEV-1")]).completedSessions,
      ∀ x ∈ s.readings, x.deviceId = s.deviceId) ∧
    (∀ s ∈ (runSteps exInit [((11 : Nat), mkReading 5 37 12 3 true "DEV-1"),
        ((12 : Nat), mkReading 6 39 13 4 true "DEV-1")]).savedStore,
      ∀ x ∈ s.readings, x.deviceId = s.deviceId)) :=
  ⟨⟨⟨fun _ hs => Option.noConfusion hs,
      fun _ hs => absurd hs (List.not_mem_nil _),
      fun _ hs => absurd hs (List.not_mem_nil _),
      fun _ hs => absurd hs (List.not_mem_nil _)⟩, by decide⟩,
    device_scope_single_device "DEV-1" exInit
      [((11 : Nat), mkReading 5 37 12 3 true "DEV-1"),
        ((12 : Nat), mkReading 6 39 13 4 true "DEV-1")]
      ⟨fun _ hs => Option.noConfusion hs,
        fun _ hs => absurd hs (List.not_mem_nil _),
        fun _ hs => absurd hs (List.not_mem_nil _),
        fun _ hs => absurd hs (List.not_mem_nil _)⟩ (by decide)⟩

/-! ### C5: sticky mlConfirmed -/

/-- The initial state is on its own trace. -/
theorem self_mem_stepsTrace (st : MonitoringState)
    (events : List (Nat × SensorReading)) : st ∈ stepsTrace st events := by
  cases events <;> simp [stepsTrace]

/-- One step from a confirmed tracked session: if a session is still
tracked afterwards it is the same session extended, so it stays
confirmed. -/
theorem step_mlConfirmed_sticky (st : MonitoringState) (now : Nat)
    (r : SensorReading) (s s1 : FireAlertSession)
    (h0 : st.currentSession = some s) (hc : s.mlConfirmed = true)
    (h1 : (step st now r).currentSession = some s1) :
    s1.mlConfirmed = true := by
  rcases step_component_cases st now r with ⟨e1, _, _, _⟩ |
    ⟨recent, b, hrec, hb, hcase⟩
  · rw [e1, h0] at h1
    cases h1
    exact hc
  · rcases hcase with ⟨hnone, _, _, _, _⟩ |
      ⟨cur, hcur, ⟨he1, _, _, _⟩ | ⟨hc1, _, _, _⟩⟩
    · rw [h0] at hnone
      cases hnone
    · rw [h0] at hcur
      cases hcur
      rw [he1] at h1
      cases h1
      simp [extendSession, hc]
    · rw [hc1] at h1
      cases h1

/-- C5: mlConfirmed is sticky. If a tracked session is confirmed and the
session survives every step of an event sequence (it is never closed, i.e.
each trace state still tracks a session), then the session tracked at the
end is still confirmed — no extension resets the flag. -/
theorem mlConfirmed_sticky (st : MonitoringState)
    (events : List (Nat × SensorReading)) (s : FireAlertSession)
    (h0 : st.currentSession = some s) (hc : s.mlConfirmed = true)
    (halive : ∀ st1 ∈ stepsTrace st events,
      st1.currentSession.isSome = true) :
    ∀ s1, (runSteps st events).currentSession = some s1 →
      s1.mlConfirmed = true := by
  induction events generalizing st s with
  | nil =>
    intro s1 h1
    simp only [runSteps, List.foldl_nil] at h1
    rw [h0] at h1
    cases h1
    exact hc
  | cons p ps ih =>
    intro s1 h1
    have hmem : step st p.1 p.2 ∈ stepsTrace st (p :: ps) := by
      simp only [stepsTrace, List.mem_cons]
      exact Or.inr (self_mem_stepsTrace _ _)
    obtain ⟨s2, hs2⟩ := Option.isSome_iff_exists.mp (halive _ hmem)
    exact ih (step st p.1 p.2) s2 hs2
      (step_mlConfirmed_sticky st p.1 p.2 s s2 h0 hc hs2)
      (fun st1 hst1 => halive st1 (by
        simp only [stepsTrace, List.mem_cons]
        exact Or.inr hst1)) s1 h1

/-- An already confirmed active session used by the C5 witness. -/
def exConfirmedSession : FireAlertSession :=
  { mkSession 3 with
    status := SessionStatus.active
    endTime := none
    mlConfirmed := true }

/-- A state tracking the confirmed session. -/
def exConfirmedState : MonitoringState :=
  { exInit with
    currentSession := some exConfirmedSession
    activeSessions := [exConfirmedSession] }

/-- Witness for C5: one further fire reading extends the confirmed session
and leaves it confirmed. -/
theorem mlConfirmed_sticky_witness :
    (exConfirmedState.currentSession = some exConfirmedSession ∧
      exConfirmedSession.mlConfirmed = true ∧
      (∀ st1 ∈ stepsTrace exConfirmedState
          [((12 : Nat), mkReading 9 33 14 2 true "DEV-1")],
        st1.currentSession.isSome = true)) ∧
    (∀ s1, (runSteps exConfirmedState
        [((12 : Nat), mkReading 9 33 14 2 true "DEV-1")]).currentSession =
          some s1 → s1.mlConfirmed = true) :=
  ⟨⟨rfl, rfl, by decide⟩,
    mlConfirmed_sticky exConfirmedState
      [((12 : Nat), mkReading 9 33 14 2 true "DEV-1")]
      exConfirmedSession rfl rfl (by decide)⟩

/-! ### C9: endTime versus startTime -/

/-- A fire reading with a late timestamp. -/
def exLate : SensorReading := mkReading 5 30 10 1 true "DEV-1"

/-- A clear reading with an earlier timestamp, not a duplicate. -/
def exEarly : SensorReading := mkReading 2 20 11 2 false "DEV-1"

/-- Counterexample for C9: the tracker copies reading timestamps without
comparing them, so a fire reading stamped 5 followed by a clear reading
stamped 2 yields a completed session with startTime 5 and endTime 2 —
endTime < startTime. -/
theorem endTime_order_counterexample :
    ((step (step exInit 301 exLate) 302 exEarly).completedSessions.map
      (fun s => (s.startTime, s.endTime))) = [(5, some 2)] ∧
    (2 : Nat) < 5 := by
  exact ⟨rfl, by decide⟩

/-- A completed session whose closing stamp is not earlier than its
opening stamp. -/
def completedEndAfterStart (s : FireAlertSession) : Prop :=
  ∀ e, s.endTime = some e → s.startTime ≤ e

/-- Induction core for C9: processing timestamp-monotone events keeps
every persisted session's endTime at or after its startTime, provided the
currently tracked session opened no later than every upcoming reading. -/
theorem endTime_ge_startTime_aux (events : List (Nat × SensorReading)) :
    ∀ (st : MonitoringState),
      (∀ s, st.currentSession = some s →
        ∀ p ∈ events, s.startTime ≤ (p.2).timestamp) →
      events.Pairwise (fun p q => (p.2).timestamp ≤ (q.2).timestamp) →
      (∀ s ∈ st.completedSessions, completedEndAfterStart s) →
      (∀ s ∈ st.savedStore, completedEndAfterStart s) →
      (∀ s ∈ (runSteps st events).completedSessions,
        completedEndAfterStart s) ∧
      (∀ s ∈ (runSteps st events).savedStore, completedEndAfterStart s) := by
  induction events with
  | nil => exact fun st _ _ hcomp hsav => ⟨hcomp, hsav⟩
  | cons p ps ih =>
    intro st hcur hmono hcomp hsav
    have hmono2 : ps.Pairwise (fun a b => (a.2).timestamp ≤ (b.2).timestamp) :=
      (List.pairwise_cons.mp hmono).2
    have hple : ∀ q ∈ ps, (p.2).timestamp ≤ (q.2).timestamp :=
      (List.pairwise_cons.mp hmono).1
    have hts := (processReadingWithWeather_fields p.2 st.weatherData).2.2.2.2.1
    rcases step_component_cases st p.1 p.2 with ⟨e1, _, e3, e4⟩ |
      ⟨recent, b, hrec, hb, hcase⟩
    · refine ih (step st p.1 p.2) ?_ hmono2 ?_ ?_
      · intro s hs q hq
        exact hcur s (by rw [← e1]; exact hs) q (List.mem_cons_of_mem p hq)
      · rw [e3]; exact hcomp
      · rw [e4]; exact hsav
    · rcases hcase with ⟨hnone, ho1, _, ho3, ho4⟩ |
        ⟨cur, hcur2, ⟨he1, _, he3, he4⟩ | ⟨hc1, _, hc3, hc4⟩⟩
      · refine ih (step st p.1 p.2) ?_ hmono2 ?_ ?_
        · intro s hs q hq
          rw [ho1] at hs
          cases hs
          have hst : (openSession (processReadingWithWeather p.2 st.weatherData)
              recent b p.1).startTime = (p.2).timestamp := by
            simp [openSession, hts]
          rw [hst]
          exact hple q hq
        · rw [ho3]; exact hcomp
        · rw [ho4]; exact hsav
      · refine ih (step st p.1 p.2) ?_ hmono2 ?_ ?_
        · intro s hs q hq
          rw [he1] at hs
          cases hs
          have hst : (extendSession cur
              (processReadingWithWeather p.2 st.weatherData) recent
              b).startTime = cur.startTime := by
            simp [extendSession]
          rw [hst]
          exact hcur cur hcur2 q (List.mem_cons_of_mem p hq)
        · rw [he3]; exact hcomp
        · rw [he4]; exact hsav
      · refine ih (step st p.1 p.2) ?_ hmono2 ?_ ?_
        · intro s hs
          rw [hc1] at hs
          cases hs
        · rw [hc3]
          intro s hs
          rcases List.mem_cons.mp hs with rfl | hs2
          · intro e he
            simp only [closeSessionUpd, Option.some.injEq] at he
            rw [← he]
            exact hcur cur hcur2 p (List.mem_cons_self p ps)
          · exact hcomp s (List.take_subset _ _ hs2)
        · rw [hc4]
          intro s hs
          rcases List.mem_cons.mp hs with rfl | hs2
          · intro e he
            simp only [closeSessionUpd, Option.some.injEq] at he
            rw [← he]
            exact hcur cur hcur2 p (List.mem_cons_self p ps)
          · exact hsav s (List.take_subset _ _ hs2)

/-- C9 amended: the code never compares timestamps, so the invariant only
holds for event streams whose reading timestamps are nondecreasing;
starting with no tracked session and a store satisfying the invariant,
every completed and persisted session then has endTime ≥ startTime. -/
theorem endTime_ge_startTime_monotone (st0 : MonitoringState)
    (events : List (Nat × SensorReading))
    (h0 : st0.currentSession = none)
    (hcomp0 : ∀ s ∈ st0.completedSessions, completedEndAfterStart s)
    (hsav0 : ∀ s ∈ st0.savedStore, completedEndAfterStart s)
    (hmono : events.Pairwise
      (fun p q => (p.2).timestamp ≤ (q.2).timestamp)) :
    (∀ s ∈ (runSteps st0 events).completedSessions,
      completedEndAfterStart s) ∧
    (∀ s ∈ (runSteps st0 events).savedStore, completedEndAfterStart s) :=
  endTime_ge_startTime_aux events st0
    (fun s hs => absurd hs (by rw [h0]; exact fun h => Option.noConfusion h))
    hmono hcomp0 hsav0

/-- Witness for C9 amended: fire at timestamp 5 then clear at timestamp 6
closes one session with endTime 6 ≥ startTime 5. -/
theorem endTime_ge_startTime_monotone_witness :
    (exInit.currentSession = none ∧
      (∀ s ∈ exInit.completedSessions, completedEndAfterStart s) ∧
      (∀ s ∈ exInit.savedStore, completedEndAfterStart s) ∧
      [((11 : Nat), mkReading 5 37 12 3 true "DEV-1"),
        ((12 : Nat), mkReading 6 24 13 4 false "DEV-1")].Pairwise
        (fun p q => (p.2).timestamp ≤ (q.2).timestamp)) ∧
    ((∀ s ∈ (runSteps exInit
        [((11 : Nat), mkReading 5 37 12 3 true "DEV-1"),
          ((12 : Nat), mkReading 6 24 13 4 false "DEV-1")]).completedSessions,
      completedEndAfterStart s) ∧
    (∀ s ∈ (runSteps exInit
        [((11 : Nat), mkReading 5 37 12 3 true "DEV-1"),
          ((12 : Nat), mkReading 6 24 13 4 false "DEV-1")]).savedStore,
      completedEndAfterStart s)) :=
  ⟨⟨rfl, fun _ hs => absurd hs (List.not_mem_nil _),
      fun _ hs => absurd hs (List.not_mem_nil _),
      by simp [List.pairwise_cons, mkReading]⟩,
    endTime_ge_startTime_monotone exInit
      [((11 : Nat), mkReading 5 37 12 3 true "DEV-1"),
        ((12 : Nat), mkReading 6 24 13 4 false "DEV-1")] rfl
      (fun _ hs => absurd hs (List.not_mem_nil _))
      (fun _ hs => absurd hs (List.not_mem_nil _))
      (by simp [List.pairwise_cons, mkReading])⟩

end VanRakshak
